import Mathlib

/-!
Verification of the facebackup job-orchestration core against its
natural-language specification.

The development shallowly embeds the Python sources:

* `src/facefusion/processors/core.py` — progress channel
  (`write_progress_tempfile` / `read_progress_tempfile`), the unified
  progress computation (`unified_progress_line`), the shared stage counter
  (`update_progress` inside `multi_process_frames`) and the chunk dispatch
  (`pick_queue` / `queue_per_future`).
* `src/facefusion/core.py` — the saga controller (`process_swap_job`,
  `execute_job`, `job_lock`).
* `src/api.py` — the HTTP-facing handlers (`swap`, `get_job_status`,
  `get_latest_job_status`).

External collaborators (credit ledger, downloads, uploads, the transformation
subprocess, document store) are black boxes; each call site is given an
oracle outcome — success with a value, a `CustomException`, or another
exception — mirroring the `try/except CustomException/except Exception`
classification in `process_swap_job`.
-/

namespace FaceBackup

/-! ## Progress channel — `src/facefusion/processors/core.py`, lines 76-97

The channel is one global file `temp/unified_progress.txt`.  Its content is
modelled as `Option Nat` (`none` = the file does not exist).  I/O failures
are modelled by an `ok : Bool` flag on each access; both `write_progress_tempfile`
and `read_progress_tempfile` swallow failures (`except Exception` around the
whole body): a failed write leaves the file unchanged, a failed read — and a
read of a missing file — returns 0. -/

def write_progress_tempfile (ok : Bool) (file : Option Nat) (percent : Nat) : Option Nat :=
  if ok then some percent else file

def read_progress_tempfile (ok : Bool) (file : Option Nat) : Nat :=
  if ok then
    match file with
    | some v => v
    | none => 0
  else 0

/-- One write issued against the channel.  `jobId` is the job on whose behalf
`unified_progress_line` performed the write; the source function
`write_progress_tempfile(percent)` takes no job id, so the field is carried
only to compare the code with the per-job reading of the spec. -/
structure WriteEv where
  jobId : String
  percent : Nat
  ok : Bool
deriving DecidableEq, Repr

/-- Replay a sequence of writes against the (initially absent) global file. -/
def apply_writes (evs : List WriteEv) : Option Nat :=
  evs.foldl (fun file e => write_progress_tempfile e.ok file e.percent) none

/-- Modelled from the claim wording (not from the code): the last value
successfully written *for the given job id*, or 0 if none exists. -/
def spec_read_for_job (jobId : String) (evs : List WriteEv) : Nat :=
  match (evs.filter (fun e => e.ok && (e.jobId == jobId))).getLast? with
  | some e => e.percent
  | none => 0

/-- The last successful write (by any job), if any. -/
def last_ok_write (evs : List WriteEv) : Option Nat :=
  ((evs.filter (fun e => e.ok)).getLast?).map (fun e => e.percent)

/-! ## Unified progress — `unified_progress_line`, lines 99-134

`unified_progress_line` receives `face_progress = current/total` (0 when the
stage total is 0, see `update_progress` lines 160-168) and publishes
`int(face_progress * 50)` during the swapper stage and
`int(50 + face_progress * 50)` during the enhancer stage.  With
`current ≤ total` both products are exact rational computations whose
truncation equals natural floor division, so the published percent is
`current * 50 / total` resp. `50 + current * 50 / total`. -/

inductive Stage
  | swapper
  | enhancer
deriving DecidableEq, Repr

def unified_percent (stage : Stage) (current total : Nat) : Nat :=
  match stage with
  | .swapper => if total = 0 then 0 else current * 50 / total
  | .enhancer => if total = 0 then 50 else 50 + current * 50 / total

/-- Shared per-stage state, `unified_state` in the source (lines 60-66). -/
structure UnifiedState where
  stage : Stage
  swapper_total : Nat
  swapper_current : Nat
  enhancer_total : Nat
  enhancer_current : Nat
deriving DecidableEq, Repr

def stage_current (st : UnifiedState) : Nat :=
  match st.stage with
  | .swapper => st.swapper_current
  | .enhancer => st.enhancer_current

def stage_total (st : UnifiedState) : Nat :=
  match st.stage with
  | .swapper => st.swapper_total
  | .enhancer => st.enhancer_total

/-- `update_progress(n)` (lines 160-176), sequential semantics: bump the
current stage counter by `n`, recompute `face_progress`, and have
`unified_progress_line` push the scaled percent to the progress channel.
Returns the new state and the channel content after the write. -/
def update_progress (st : UnifiedState) (n : Nat) (chOk : Bool) (ch : Option Nat) :
    UnifiedState × Option Nat :=
  let st' :=
    match st.stage with
    | .swapper => { st with swapper_current := st.swapper_current + n }
    | .enhancer => { st with enhancer_current := st.enhancer_current + n }
  (st', write_progress_tempfile chOk ch (unified_percent st.stage (stage_current st') (stage_total st')))

/-! ## Chunk dispatch — `multi_process_frames`, lines 178-205

`queue_per_future = max(len(queue_payloads) // execution_thread_count *
execution_queue_count, 1)` and the `while not queue.empty()` loop submits one
future per `pick_queue(queue, queue_per_future)`, which pops up to
`queue_per_future` payloads.  So the payload list is cut into successive
chunks of `queue_per_future` units, the last chunk possibly shorter. -/

def queue_per_future (payloadCount threadCount queueCount : Nat) : Nat :=
  max (payloadCount / threadCount * queueCount) 1

/-- The successive chunks handed to the worker pool.  `pick_queue` always
removes at least one payload because the call site guarantees `k ≥ 1`
(`queue_per_future` is clamped with `max(…, 1)`). -/
def pick_chunks (k : Nat) : List α → List (List α)
  | [] => []
  | x :: xs => (x :: xs.take (k - 1)) :: pick_chunks k (xs.drop (k - 1))
termination_by l => l.length
decreasing_by
  simp only [List.length_drop, List.length_cons]
  omega

/-- Chunking as performed by `multi_process_frames` for a payload list
`units` under `execution_thread_count = threads` and
`execution_queue_count = queues`. -/
def multi_process_chunks (units : List α) (threads queues : Nat) : List (List α) :=
  pick_chunks (queue_per_future units.length threads queues) units

/-! ## Saga controller — `process_swap_job`, `src/facefusion/core.py` lines 58-187

Every external call inside the `try` block can either return a value or
raise; raised exceptions are either `CustomException` (handled by the first
`except`, HTTP 400) or any other `Exception` (second `except`, HTTP 500).
The `Oracle` structure fixes one outcome per call site, making
`process_swap_job` a pure function of its environment. -/

inductive Exn
  | custom (msg : String)
  | other (msg : String)
deriving DecidableEq, Repr

/-- Outcome of one fallible external call. -/
abbrev StepR (α : Type) := Except Exn α

def stepOk : StepR α → Bool
  | .ok _ => true
  | .error _ => false

/-- The temp files a job can create: `target_{swapId}.mp4`, per-face
`source_{uuid}.jpg` / `ref_{uuid}.jpg`, `result_{swapId}.mp4`, the preview
webm and the preview thumbnail. -/
inductive FileId
  | target
  | src (i : Nat)
  | ref (i : Nat)
  | output
  | previewWebm
  | thumbnail
deriving DecidableEq, Repr

/-- Environment of one `process_swap_job` run: one outcome per external call
site, in source order.  `faceDownloads` lists, per entry of
`params["faces"]`, the outcomes of the source download and of the reference
download (lines 75-81).  `runSubprocess` is the FaceFusion subprocess: an
exception from `Popen`/`wait`, or its exit code (a non-zero code makes line
134-135 raise a generic `Exception`).  The calls made inside the reached
`except` handler are fallible externals too: `registerError` is the
`register_error` call (line 169 resp. 176), `refundCall` the
`refund_user_credits` call (line 171 resp. 178) and `setStatusFailed` the
`update_swap_status_local('failed')` call (line 172 resp. 179); if one of
them raises, that exception escapes `process_swap_job` — only the `finally`
block still runs. -/
structure Oracle where
  registerDoc : StepR Unit
  holdCredits : StepR Nat
  downloadTarget : StepR Unit
  faceDownloads : List (StepR Unit × StepR Unit)
  runSubprocess : StepR Nat
  createWebm : StepR Unit
  uploadPreview : StepR Unit
  uploadThumbnail : StepR Unit
  uploadResult : StepR Unit
  updateDoc : StepR Unit
  deduct : StepR Unit
  setStatusCompleted : StepR Unit
  registerError : StepR Unit
  refundCall : StepR Unit
  setStatusFailed : StepR Unit

/-- The per-face download loop (lines 75-81): for each face, download the
source then the reference image, stopping at the first raised exception.
Returns the files created so far (also on failure: files downloaded before
the failing call exist on disk). -/
def downloadFaces : List (StepR Unit × StepR Unit) → Nat → Except (Exn × List FileId) (List FileId)
  | [], _ => .ok []
  | (s, r) :: rest, i =>
    match s with
    | .error e => .error (e, [])
    | .ok _ =>
      match r with
      | .error e => .error (e, [FileId.src i])
      | .ok _ =>
        match downloadFaces rest (i + 1) with
        | .error (e, fs) => .error (e, FileId.src i :: FileId.ref i :: fs)
        | .ok fs => .ok (FileId.src i :: FileId.ref i :: fs)

/-- State visible to the `except` handlers and the `finally` block:
`credits_required` (`none` before the hold call returns), the number of
`deduct_user_credits` invocations, the temp files created so far, and the
`temp_files_to_clean` list. -/
structure SagaSt where
  credits : Option Nat
  deductCalls : Nat
  created : List FileId
deriving DecidableEq, Repr

/-- The `try` block of `process_swap_job` (lines 66-166): runs the steps in
source order, stopping at the first exception.  Returns the state at exit
together with the raised exception, if any. -/
def tryBlock (o : Oracle) : SagaSt × Option Exn :=
  match o.registerDoc with
  | .error e => (⟨none, 0, []⟩, some e)
  | .ok _ =>
  match o.holdCredits with
  | .error e => (⟨none, 0, []⟩, some e)
  | .ok credits =>
  match o.downloadTarget with
  | .error e => (⟨some credits, 0, []⟩, some e)
  | .ok _ =>
  match downloadFaces o.faceDownloads 0 with
  | .error (e, fs) => (⟨some credits, 0, FileId.target :: fs⟩, some e)
  | .ok fs =>
  match o.runSubprocess with
  | .error e => (⟨some credits, 0, FileId.target :: fs⟩, some e)
  | .ok rc =>
  if rc ≠ 0 then (⟨some credits, 0, FileId.target :: fs⟩, some (.other "FaceFusion failed"))
  else
  match o.createWebm with
  | .error e => (⟨some credits, 0, FileId.target :: fs ++ [FileId.output]⟩, some e)
  | .ok _ =>
  let created := FileId.target :: fs ++ [FileId.output, FileId.previewWebm, FileId.thumbnail]
  match o.uploadPreview with
  | .error e => (⟨some credits, 0, created⟩, some e)
  | .ok _ =>
  match o.uploadThumbnail with
  | .error e => (⟨some credits, 0, created⟩, some e)
  | .ok _ =>
  match o.uploadResult with
  | .error e => (⟨some credits, 0, created⟩, some e)
  | .ok _ =>
  match o.updateDoc with
  | .error e => (⟨some credits, 0, created⟩, some e)
  | .ok _ =>
  match o.deduct with
  | .error e => (⟨some credits, 1, created⟩, some e)
  | .ok _ =>
  match o.setStatusCompleted with
  | .error e => (⟨some credits, 1, created⟩, some e)
  | .ok _ => (⟨some credits, 1, created⟩, none)

/-- Python truthiness of `credits_required` in `if credits_required:`
(lines 170, 177): `None` and `0` are falsy. -/
def creditsTruthy : Option Nat → Bool
  | some (_ + 1) => true
  | _ => false

/-- The `finally` loop (lines 182-187): one `remove_file` attempt per listed
file, in order; the attempt outcomes (`rms`) are discarded by the bare
`except: pass`, so the loop always visits every file and never raises. -/
def run_cleanup : List FileId → List Bool → List FileId
  | [], _ => []
  | f :: fs, rms => f :: run_cleanup fs rms.tail

/-- `temp_files_to_clean.extend(...)` on line 165: target, then all source
paths, then all reference paths, then output, preview webm, thumbnail. -/
def success_cleanup (n : Nat) : List FileId :=
  FileId.target :: ((List.range n).map FileId.src) ++ ((List.range n).map FileId.ref)
    ++ [FileId.output, FileId.previewWebm, FileId.thumbnail]

/-- The body of the reached `except` handler (lines 168-173 for
`CustomException`, lines 175-180 for any other `Exception`): call
`register_error`, then `refund_user_credits` if `credits_required` is
truthy, then `update_swap_status_local('failed')`.  Each call may itself
raise; a raise skips the remaining handler calls and its exception then
escapes `process_swap_job` (the original exception is replaced).  Returns
the number of refund invocations made, and the handler's own exception if
it raised. -/
def run_handler (o : Oracle) (credits : Option Nat) : Nat × Option Exn :=
  match o.registerError with
  | .error e2 => (0, some e2)
  | .ok _ =>
    if creditsTruthy credits then
      match o.refundCall with
      | .error e2 => (1, some e2)
      | .ok _ =>
        match o.setStatusFailed with
        | .error e2 => (1, some e2)
        | .ok _ => (1, none)
    else
      match o.setStatusFailed with
      | .error e2 => (0, some e2)
      | .ok _ => (0, none)

/-- The reached `except` handler runs to completion: `register_error`
returns, the refund (when the held amount is truthy) returns, and the local
status update returns. -/
def handler_completes (o : Oracle) (credits : Option Nat) : Bool :=
  stepOk o.registerError &&
  (!(creditsTruthy credits) || stepOk o.refundCall) &&
  stepOk o.setStatusFailed

/-- Observable outcome of one `process_swap_job` run.  `result` is the
status code of the returned (body, code) pair, or `none` when the run
propagated an exception instead of returning; `propagated` is that escaping
exception. -/
structure Outcome where
  result : Option Nat
  propagated : Option Exn
  holdCalls : Nat
  deductCalls : Nat
  refundCalls : Nat
  credits : Option Nat
  created : List FileId
  cleanupList : List FileId
  deleteAttempts : List FileId
deriving DecidableEq, Repr

/-- `process_swap_job` (lines 58-187): the `try` chain, the two `except`
handlers (`register_error`, conditional refund, local status update, return
400 resp. 400/500) and the `finally` cleanup loop.  If a call inside the
reached handler raises, no pair is returned and that exception propagates —
the `finally` loop still runs (over the then-empty cleanup list).  `rms`
gives the outcome of each `remove_file` attempt, which the bare `except`
discards. -/
def process_swap_job (o : Oracle) (rms : List Bool) : Outcome :=
  let holdCalls := match o.registerDoc with | .ok _ => 1 | .error _ => 0
  match tryBlock o with
  | (st, none) =>
    let cl := success_cleanup o.faceDownloads.length
    { result := some 200, propagated := none, holdCalls := holdCalls,
      deductCalls := st.deductCalls, refundCalls := 0,
      credits := st.credits, created := st.created, cleanupList := cl,
      deleteAttempts := run_cleanup cl rms }
  | (st, some e) =>
    let h := run_handler o st.credits
    { result :=
        match h.2 with
        | some _ => none
        | none => some (match e with | .custom _ => 400 | .other _ => 500),
      propagated := h.2,
      holdCalls := holdCalls, deductCalls := st.deductCalls, refundCalls := h.1,
      credits := st.credits, created := st.created, cleanupList := [],
      deleteAttempts := run_cleanup [] rms }

/-- `execute_job` (lines 189-200): runs `process_swap_job` under the global
`job_lock`.  When a pair comes back, the cache entry is rewritten to
`COMPLETED` iff the status code is 200, else `FAILED`; when
`process_swap_job` raises instead, the assignment on line 195 is skipped —
no status is written (`none`) and the entry keeps its previous value. -/
def execute_job (o : Oracle) (rms : List Bool) : Option String × Outcome :=
  let r := process_swap_job o rms
  (match r.result with
   | some code => some (if code = 200 then "COMPLETED" else "FAILED")
   | none => none,
   r)

/-- All face downloads succeed. -/
def facesOk (fs : List (StepR Unit × StepR Unit)) : Bool :=
  fs.all (fun p => stepOk p.1 && stepOk p.2)

/-- Every step up to (excluding) the `deduct_user_credits` call succeeds. -/
def preDeductOk (o : Oracle) : Bool :=
  stepOk o.registerDoc && stepOk o.holdCredits && stepOk o.downloadTarget &&
  facesOk o.faceDownloads &&
  (match o.runSubprocess with | .ok rc => rc == 0 | .error _ => false) &&
  stepOk o.createWebm && stepOk o.uploadPreview && stepOk o.uploadThumbnail &&
  stepOk o.uploadResult && stepOk o.updateDoc

/-- Every step of the `try` block succeeds. -/
def allOk (o : Oracle) : Bool :=
  preDeductOk o && stepOk o.deduct && stepOk o.setStatusCompleted

/-- `credits_required` as of the end of the run: set iff the hold call was
reached and returned. -/
def heldCredits (o : Oracle) : Option Nat :=
  match o.registerDoc with
  | .error _ => none
  | .ok _ =>
    match o.holdCredits with
    | .ok c => some c
    | .error _ => none

/-- Files created by a fully successful run, in creation order. -/
def success_created (n : Nat) : List FileId :=
  FileId.target :: ((List.range n).flatMap (fun j => [FileId.src j, FileId.ref j]))
    ++ [FileId.output, FileId.previewWebm, FileId.thumbnail]

/-! ## HTTP-facing handlers — `src/api.py`

The `jobs` cache is modelled as an insertion-ordered association list
(`TTLCache` iterates keys in insertion order; eviction is irrelevant to the
handler logic verified here). -/

structure JobEntry where
  status : String
  swapId : Option String
  userId : Option String
  projectId : String
  progress : Nat
deriving DecidableEq, Repr

/-- `job_id in jobs` / `jobs[job_id]`. -/
def lookupJob (jobs : List (String × JobEntry)) (jobId : String) : Option JobEntry :=
  (jobs.find? (fun p => p.1 == jobId)).map (fun p => p.2)

/-- The three shapes of response bodies the status endpoints produce. -/
inductive StatusResponse
  | jobStatus (entry : JobEntry) (progress : Nat)
  | notFound (code : Nat) (message : String)
  | idle
deriving DecidableEq, Repr

/-- `get_job_status` (lines 79-88): a known id gets the cached entry with the
progress read from the global channel file; an unknown id gets the fixed
structured error `{"error": {"code": 404, "message": "Job not found"}}`. -/
def get_job_status (jobs : List (String × JobEntry)) (chOk : Bool) (ch : Option Nat)
    (jobId : String) : StatusResponse :=
  match lookupJob jobs jobId with
  | some job => .jobStatus job (read_progress_tempfile chOk ch)
  | none => .notFound 404 "Job not found"

/-- `get_latest_job_status` (lines 90-95): `list(jobs.keys())[-1]` when the
cache is nonempty, else `{"status": "idle"}`. -/
def get_latest_job_status (jobs : List (String × JobEntry)) (chOk : Bool) (ch : Option Nat) :
    StatusResponse :=
  match jobs.getLast? with
  | some p => get_job_status jobs chOk ch p.1
  | none => .idle

/-- Submit-request payload for `swap` (lines 62-77).  `faces = none` models a
params dict with no `"faces"` key, in which case `params["faces"]` on line 75
raises `KeyError`. -/
structure SwapParams where
  swapId : Option String
  userId : Option String
  projectId : Option String
  faces : Option Nat
deriving DecidableEq, Repr

/-- Result of one `swap` call: the response (`some jobId`, or `none` when the
handler raised before returning), the cache afterwards, and the background
tasks scheduled. -/
structure SwapResult where
  response : Option String
  cache : List (String × JobEntry)
  scheduled : List String
deriving DecidableEq, Repr

/-- `swap` (lines 62-77), with the fresh `job_id` supplied: line 68 inserts
the `IN_PROGRESS` entry; line 75 then evaluates `params["faces"]`, raising
`KeyError` when absent — before `background_tasks.add_task` on line 76 runs
and before the `{"jobId": job_id}` response is built. -/
def swap (p : SwapParams) (jobId : String) (cache : List (String × JobEntry)) : SwapResult :=
  let entry : JobEntry :=
    { status := "IN_PROGRESS", swapId := p.swapId, userId := p.userId,
      projectId := p.projectId.getD "default", progress := 0 }
  let cache' := cache ++ [(jobId, entry)]
  match p.faces with
  | none => { response := none, cache := cache', scheduled := [] }
  | some _ => { response := some jobId, cache := cache', scheduled := [jobId] }

/-! ## Global job lock — `src/facefusion/core.py` lines 56, 189-200

`execute_job` wraps the *entire* `process_swap_job` call in
`with job_lock:`.  We record the event sequence of one job (lock acquire,
the saga steps in order, lock release) and ask which steps lie inside the
critical section; then we interleave two such jobs under mutual exclusion
and show their step events can never interleave. -/

inductive SagaStep
  | registerDoc
  | creditHold
  | assetFetch
  | transform
  | derivePreview
  | publish
  | ledgerCommit
  | deductCredits
  | markStatus
deriving DecidableEq, Repr

/-- The saga steps of `process_swap_job`, in source order. -/
def saga_steps : List SagaStep :=
  [.registerDoc, .creditHold, .assetFetch, .transform, .derivePreview,
   .publish, .ledgerCommit, .deductCredits, .markStatus]

inductive LockEv
  | acquire
  | step (s : SagaStep)
  | release
deriving DecidableEq, Repr

/-- The events of one `execute_job` invocation: `with job_lock:` acquires
before any saga step and releases after the last one (including the cache
write). -/
def execute_job_events : List LockEv :=
  LockEv.acquire :: saga_steps.map LockEv.step ++ [LockEv.release]

/-- Which saga steps of an event sequence occur while the lock is held. -/
def steps_inside_lock : List LockEv → Bool → List SagaStep
  | [], _ => []
  | LockEv.acquire :: rest, _ => steps_inside_lock rest true
  | LockEv.release :: rest, _ => steps_inside_lock rest false
  | LockEv.step s :: rest, holding =>
    if holding then s :: steps_inside_lock rest holding else steps_inside_lock rest holding

/-- Modelled from the spec: "step 4 (transformation) is serialized globally
across all jobs via one mutual-exclusion critical section spanning its full
duration"; every other step is claimed to run outside it. -/
def spec_serialized_steps : List SagaStep := [SagaStep.transform]

/-- Interleaving phases of the step events of two jobs A and B:
no steps yet, only A so far, only B so far, all of A before any of B,
all of B before any of A, or properly interleaved. -/
inductive Phase
  | noSteps
  | onlyA
  | onlyB
  | aThenB
  | bThenA
  | interleaved
deriving DecidableEq, Repr, Fintype

def phase_step (ph : Phase) (t : Bool) : Phase :=
  match ph, t with
  | .noSteps, false => .onlyA
  | .noSteps, true => .onlyB
  | .onlyA, false => .onlyA
  | .onlyA, true => .aThenB
  | .onlyB, true => .onlyB
  | .onlyB, false => .bThenA
  | .aThenB, true => .aThenB
  | .aThenB, false => .interleaved
  | .bThenA, false => .bThenA
  | .bThenA, true => .interleaved
  | .interleaved, _ => .interleaved

/-- Scheduler state for two concurrent `execute_job` invocations: how far
each job has progressed through `execute_job_events` (11 events, position 11
= finished), who holds `job_lock`, and the interleaving phase of the step
events observed so far.  `false` names job A, `true` job B. -/
abbrev SchedState := Fin 12 × Fin 12 × Option Bool × Phase

def advance (p : Fin 12) : Fin 12 :=
  if h : p.val + 1 < 12 then ⟨p.val + 1, h⟩ else p

/-- One scheduler step: job `t` executes its next event if it may.  An
`acquire` blocks while the other job holds the lock (`none` = the schedule
is not enabled). -/
def sched_step (s : SchedState) (t : Bool) : Option SchedState :=
  match s with
  | (pa, pb, h, ph) =>
    let p := if t then pb else pa
    match execute_job_events.get? p.val with
    | none => none
    | some ev =>
      let put := fun (h' : Option Bool) (ph' : Phase) =>
        some (if t then (pa, advance p, h', ph') else (advance p, pb, h', ph'))
      match ev with
      | .acquire =>
        match h with
        | none => put (some t) ph
        | some _ => none
      | .release =>
        match h with
        | some t' => if t = t' then put none ph else none
        | none => none
      | .step _ => put h (phase_step ph t)

def init_sched : SchedState := (⟨0, by omega⟩, ⟨0, by omega⟩, none, Phase.noSteps)

/-- Run a schedule, given as the sequence of job ids picked by the
scheduler. -/
def run_sched : SchedState → List Bool → Option SchedState
  | s, [] => some s
  | s, t :: rest =>
    match sched_step s t with
    | none => none
    | some s' => run_sched s' rest

/-- The states the two-job scheduler can reach from `init_sched`: at every
moment at most one job sits strictly inside its acquire/release bracket, and
the phase tracks which job ran its steps first — `interleaved` never
appears. -/
def reachable_states : List SchedState :=
  [(0, 0, none, Phase.noSteps),
   (1, 0, some false, Phase.noSteps),
   (0, 1, some true, Phase.noSteps),
   (2, 0, some false, Phase.onlyA),
   (0, 2, some true, Phase.onlyB),
   (3, 0, some false, Phase.onlyA),
   (0, 3, some true, Phase.onlyB),
   (4, 0, some false, Phase.onlyA),
   (0, 4, some true, Phase.onlyB),
   (5, 0, some false, Phase.onlyA),
   (0, 5, some true, Phase.onlyB),
   (6, 0, some false, Phase.onlyA),
   (0, 6, some true, Phase.onlyB),
   (7, 0, some false, Phase.onlyA),
   (0, 7, some true, Phase.onlyB),
   (8, 0, some false, Phase.onlyA),
   (0, 8, some true, Phase.onlyB),
   (9, 0, some false, Phase.onlyA),
   (0, 9, some true, Phase.onlyB),
   (10, 0, some false, Phase.onlyA),
   (0, 10, some true, Phase.onlyB),
   (11, 0, none, Phase.onlyA),
   (0, 11, none, Phase.onlyB),
   (11, 1, some true, Phase.onlyA),
   (1, 11, some false, Phase.onlyB),
   (11, 2, some true, Phase.aThenB),
   (2, 11, some false, Phase.bThenA),
   (11, 3, some true, Phase.aThenB),
   (3, 11, some false, Phase.bThenA),
   (11, 4, some true, Phase.aThenB),
   (4, 11, some false, Phase.bThenA),
   (11, 5, some true, Phase.aThenB),
   (5, 11, some false, Phase.bThenA),
   (11, 6, some true, Phase.aThenB),
   (6, 11, some false, Phase.bThenA),
   (11, 7, some true, Phase.aThenB),
   (7, 11, some false, Phase.bThenA),
   (11, 8, some true, Phase.aThenB),
   (8, 11, some false, Phase.bThenA),
   (11, 9, some true, Phase.aThenB),
   (9, 11, some false, Phase.bThenA),
   (11, 10, some true, Phase.aThenB),
   (10, 11, some false, Phase.bThenA),
   (11, 11, none, Phase.aThenB),
   (11, 11, none, Phase.bThenA)]

def in_reach_opt : Option SchedState → Bool
  | none => true
  | some s => decide (s ∈ reachable_states)

/-! ## Shared stage counter — `update_progress`, lines 160-176

`unified_state["swapper_current"] += n` executes inside worker threads of
the `ThreadPoolExecutor` with no lock: it is a read of the dict entry
followed by a write of the sum, and a thread switch may occur in between.
We model one counter `c` and two concurrent increment calls, each split
into its read and its write. -/

inductive CAct
  | read (t : Bool)
  | write (t : Bool)
deriving DecidableEq, Repr

/-- `c` is the shared counter; `r0`/`r1` are the two threads' private reads
of it. -/
structure CState where
  c : Nat
  r0 : Nat
  r1 : Nat
deriving DecidableEq, Repr

def cstep (n0 n1 : Nat) (st : CState) : CAct → CState
  | .read false => { st with r0 := st.c }
  | .read true => { st with r1 := st.c }
  | .write false => { st with c := st.r0 + n0 }
  | .write true => { st with c := st.r1 + n1 }

def crun (n0 n1 : Nat) (sched : List CAct) (st : CState) : CState :=
  sched.foldl (cstep n0 n1) st

/-- All interleavings of the two increment calls
`[read 0, write 0]` and `[read 1, write 1]`. -/
def counter_interleavings : List (List CAct) :=
  [[CAct.read false, CAct.write false, CAct.read true, CAct.write true],
   [CAct.read false, CAct.read true, CAct.write false, CAct.write true],
   [CAct.read false, CAct.read true, CAct.write true, CAct.write false],
   [CAct.read true, CAct.read false, CAct.write false, CAct.write true],
   [CAct.read true, CAct.read false, CAct.write true, CAct.write false],
   [CAct.read true, CAct.write true, CAct.read false, CAct.write false]]

/-- The claim's reading of the code: the counter update is guarded (mutex or
atomic), so two concurrent increments always leave the counter at the sum of
the two contributions. -/
def counter_update_linearizable : Prop :=
  ∀ sched ∈ counter_interleavings, ∀ n0 n1 : Nat,
    (crun n0 n1 sched ⟨0, 0, 0⟩).c = n0 + n1

/-! ## Claim theorems -/

/-- Concrete write trace for claim C3: job "A" publishes 30, then job "B"
publishes 80, both successfully. -/
def c3_trace : List WriteEv := [⟨"A", 30, true⟩, ⟨"B", 80, true⟩]

/-- Concrete unit list for claim C5: ten work units. -/
def c5_units : List Nat := List.range 10

/-- Oracle for claim C1's counterexample: the target video downloads, then
the first face's source download raises; every later step is unreached. -/
def c1_oracle : Oracle :=
  { registerDoc := .ok (), holdCredits := .ok 3, downloadTarget := .ok (),
    faceDownloads := [(.error (.other "download failed"), .ok ())],
    runSubprocess := .ok 0, createWebm := .ok (), uploadPreview := .ok (),
    uploadThumbnail := .ok (), uploadResult := .ok (), updateDoc := .ok (),
    deduct := .ok (), setStatusCompleted := .ok (),
    registerError := .ok (), refundCall := .ok (), setStatusFailed := .ok () }

/-- Oracle for the `c1_cleanup` witness: a fully successful one-face job
whose first delete attempt fails. -/
def c1_ok_oracle : Oracle :=
  { registerDoc := .ok (), holdCredits := .ok 3, downloadTarget := .ok (),
    faceDownloads := [(.ok (), .ok ())],
    runSubprocess := .ok 0, createWebm := .ok (), uploadPreview := .ok (),
    uploadThumbnail := .ok (), uploadResult := .ok (), updateDoc := .ok (),
    deduct := .ok (), setStatusCompleted := .ok (),
    registerError := .ok (), refundCall := .ok (), setStatusFailed := .ok () }

/-- Oracle for claim C2's counterexample: every step succeeds except the
final local status update, which raises after `deduct_user_credits` has
already been called. -/
def c2_oracle : Oracle :=
  { registerDoc := .ok (), holdCredits := .ok 5, downloadTarget := .ok (),
    faceDownloads := [(.ok (), .ok ())],
    runSubprocess := .ok 0, createWebm := .ok (), uploadPreview := .ok (),
    uploadThumbnail := .ok (), uploadResult := .ok (), updateDoc := .ok (),
    deduct := .ok (), setStatusCompleted := .error (.other "status update failed"),
    registerError := .ok (), refundCall := .ok (), setStatusFailed := .ok () }

/-- Oracle for the `c2_hold_settlement` witness: a fully successful job
holding 5 credits. -/
def c2_ok_oracle : Oracle :=
  { registerDoc := .ok (), holdCredits := .ok 5, downloadTarget := .ok (),
    faceDownloads := [(.ok (), .ok ())],
    runSubprocess := .ok 0, createWebm := .ok (), uploadPreview := .ok (),
    uploadThumbnail := .ok (), uploadResult := .ok (), updateDoc := .ok (),
    deduct := .ok (), setStatusCompleted := .ok (),
    registerError := .ok (), refundCall := .ok (), setStatusFailed := .ok () }

/-- Oracle for the `c10_code_mapping` witness: the credit hold raises a
`CustomException`. -/
def c10_oracle : Oracle :=
  { registerDoc := .ok (), holdCredits := .error (.custom "insufficient credits"),
    downloadTarget := .ok (), faceDownloads := [],
    runSubprocess := .ok 0, createWebm := .ok (), uploadPreview := .ok (),
    uploadThumbnail := .ok (), uploadResult := .ok (), updateDoc := .ok (),
    deduct := .ok (), setStatusCompleted := .ok (),
    registerError := .ok (), refundCall := .ok (), setStatusFailed := .ok () }

/-- Oracle for claim C10's counterexample: the target download raises, and
inside the `except Exception` handler the `register_error` call raises too —
`process_swap_job` then propagates the handler's exception instead of
returning a (body, code) pair, and `execute_job` never writes a terminal
status for the job. -/
def c10_prop_oracle : Oracle :=
  { registerDoc := .ok (), holdCredits := .ok 5,
    downloadTarget := .error (.other "network down"), faceDownloads := [],
    runSubprocess := .ok 0, createWebm := .ok (), uploadPreview := .ok (),
    uploadThumbnail := .ok (), uploadResult := .ok (), updateDoc := .ok (),
    deduct := .ok (), setStatusCompleted := .ok (),
    registerError := .error (.other "error store down"), refundCall := .ok (),
    setStatusFailed := .ok () }

/-! ## Proofs -/

lemma apply_writes_append (l : List WriteEv) (e : WriteEv) :
    apply_writes (l ++ [e]) = write_progress_tempfile e.ok (apply_writes l) e.percent := by
  simp [apply_writes, List.foldl_append]

lemma apply_writes_eq_last_ok (evs : List WriteEv) :
    apply_writes evs = last_ok_write evs := by
  induction evs using List.reverseRecOn with
  | nil => rfl
  | append_singleton l e ih =>
    rcases hok : e.ok with _ | _
    · calc apply_writes (l ++ [e]) = apply_writes l := by
            simp [apply_writes_append, write_progress_tempfile, hok]
        _ = last_ok_write l := ih
        _ = last_ok_write (l ++ [e]) := by
            simp [last_ok_write, List.filter_append, hok]
    · calc apply_writes (l ++ [e]) = some e.percent := by
            simp [apply_writes_append, write_progress_tempfile, hok]
        _ = last_ok_write (l ++ [e]) := by
            simp [last_ok_write, List.filter_append, hok]

lemma unified_percent_mono (s : Stage) (t : Nat) :
    ∀ c c', c ≤ c' → unified_percent s c t ≤ unified_percent s c' t := by
  intro c c' h
  cases s <;> simp only [unified_percent] <;> split
  · rfl
  · exact Nat.div_le_div_right (Nat.mul_le_mul_right 50 h)
  · rfl
  · exact Nat.add_le_add_left (Nat.div_le_div_right (Nat.mul_le_mul_right 50 h)) 50

lemma unified_percent_swapper_le (c t : Nat) (h : c ≤ t) :
    unified_percent .swapper c t ≤ 50 := by
  simp only [unified_percent]
  split
  · omega
  · rename_i ht
    calc c * 50 / t ≤ t * 50 / t := Nat.div_le_div_right (Nat.mul_le_mul_right 50 h)
      _ = 50 := Nat.mul_div_cancel_left 50 (Nat.pos_of_ne_zero ht)

lemma unified_percent_swapper_top (t : Nat) (ht : t ≠ 0) :
    unified_percent .swapper t t = 50 := by
  simp only [unified_percent, if_neg ht]
  exact Nat.mul_div_cancel_left 50 (Nat.pos_of_ne_zero ht)

lemma unified_percent_enhancer_ge (c t : Nat) :
    50 ≤ unified_percent .enhancer c t := by
  simp only [unified_percent]
  split
  · exact Nat.le_refl 50
  · exact Nat.le_add_right 50 _

lemma unified_percent_enhancer_le (c t : Nat) (h : c ≤ t) :
    unified_percent .enhancer c t ≤ 100 := by
  by_cases ht : t = 0
  · simp [unified_percent, ht]
  · have hs := unified_percent_swapper_le c t h
    simp only [unified_percent, if_neg ht] at hs ⊢
    omega

lemma unified_percent_enhancer_top (t : Nat) (ht : t ≠ 0) :
    unified_percent .enhancer t t = 100 := by
  have := unified_percent_swapper_top t ht
  simp only [unified_percent, if_neg ht] at *
  omega

lemma pick_chunks_flatten (k : Nat) (l : List α) : (pick_chunks k l).flatten = l := by
  induction l using pick_chunks.induct k with
  | case1 => simp [pick_chunks]
  | case2 x xs ih =>
    simp [pick_chunks, ih]

lemma pick_chunks_ne_nil (k : Nat) (x : α) (xs : List α) :
    pick_chunks k (x :: xs) ≠ [] := by
  simp [pick_chunks]

lemma pick_chunks_length_le (k : Nat) (hk : 1 ≤ k) (l : List α) :
    ∀ c ∈ pick_chunks k l, c.length ≤ k := by
  induction l using pick_chunks.induct k with
  | case1 => simp [pick_chunks]
  | case2 x xs ih =>
    intro c hc
    simp only [pick_chunks, List.mem_cons] at hc
    rcases hc with rfl | hc
    · simp only [List.length_cons, List.length_take]
      omega
    · exact ih c hc

lemma pick_chunks_dropLast_length (k : Nat) (hk : 1 ≤ k) (l : List α) :
    ∀ c ∈ (pick_chunks k l).dropLast, c.length = k := by
  induction l using pick_chunks.induct k with
  | case1 => simp [pick_chunks]
  | case2 x xs ih =>
    intro c hc
    by_cases hd : xs.drop (k - 1) = []
    · simp [pick_chunks, hd] at hc
    · have hne : pick_chunks k (xs.drop (k - 1)) ≠ [] := by
        cases hdd : xs.drop (k - 1) with
        | nil => exact absurd hdd hd
        | cons y ys => simp [pick_chunks, hdd]
      simp only [pick_chunks] at hc
      rw [List.dropLast_cons_of_ne_nil hne] at hc
      rcases List.mem_cons.mp hc with rfl | hc
      · have hlen : k - 1 ≤ xs.length := by
          by_contra hcon
          push_neg at hcon
          exact hd (List.drop_eq_nil_of_le (Nat.le_of_lt hcon))
        simp only [List.length_cons, List.length_take]
        omega
      · exact ih c hc

lemma pick_chunks_short_count (k : Nat) (hk : 1 ≤ k) (l : List α) :
    (pick_chunks k l).countP (fun c => decide (c.length < k)) ≤ 1 := by
  induction l using pick_chunks.induct k with
  | case1 => simp [pick_chunks]
  | case2 x xs ih =>
    by_cases hd : xs.drop (k - 1) = []
    · simp only [pick_chunks, hd, List.countP_cons, List.countP_nil]
      split <;> omega
    · have hlen : k - 1 ≤ xs.length := by
        by_contra hcon
        push_neg at hcon
        exact hd (List.drop_eq_nil_of_le (Nat.le_of_lt hcon))
      have hfull : ¬ ((x :: xs.take (k - 1)).length < k) := by
        simp only [List.length_cons, List.length_take]
        omega
      simp only [pick_chunks, List.countP_cons, decide_eq_true_eq]
      rw [if_neg hfull]
      simpa using ih

lemma queue_per_future_pos (n w b : Nat) : 1 ≤ queue_per_future n w b :=
  Nat.le_max_right _ 1

lemma downloadFaces_of_facesOk (fs : List (StepR Unit × StepR Unit)) (i : Nat)
    (h : facesOk fs = true) :
    downloadFaces fs i =
      .ok ((List.range' i fs.length).flatMap fun j => [FileId.src j, FileId.ref j]) := by
  induction fs generalizing i with
  | nil => simp [downloadFaces]
  | cons p rest ih =>
    obtain ⟨s, r⟩ := p
    simp only [facesOk, List.all_cons, Bool.and_eq_true] at h
    obtain ⟨⟨hs, hr⟩, hrest⟩ := h
    cases s with
    | error e => simp [stepOk] at hs
    | ok _ =>
      cases r with
      | error e => simp [stepOk] at hr
      | ok _ =>
        have := ih (i + 1) hrest
        simp [downloadFaces, this, List.range'_succ]

lemma facesOk_of_downloadFaces_ok (fs : List (StepR Unit × StepR Unit)) (i : Nat)
    (l : List FileId) (h : downloadFaces fs i = .ok l) : facesOk fs = true := by
  induction fs generalizing i l with
  | nil => simp [facesOk]
  | cons p rest ih =>
    obtain ⟨s, r⟩ := p
    cases s with
    | error e => simp [downloadFaces] at h
    | ok _ =>
      cases r with
      | error e => simp [downloadFaces] at h
      | ok _ =>
        simp only [downloadFaces] at h
        rcases hrec : downloadFaces rest (i + 1) with pe | fl
        · rw [hrec] at h
          cases h
        · rw [hrec] at h
          simp only [facesOk, List.all_cons, stepOk, Bool.and_eq_true]
          exact ⟨⟨trivial, trivial⟩, ih (i + 1) fl hrec⟩

lemma tryBlock_char (o : Oracle) :
    (tryBlock o).1.credits = heldCredits o
  ∧ (tryBlock o).1.deductCalls = (if preDeductOk o = true then 1 else 0)
  ∧ ((tryBlock o).2 = none ↔ allOk o = true)
  ∧ ((tryBlock o).2 = none →
       (tryBlock o).1.created = success_created o.faceDownloads.length) := by
  obtain ⟨reg, hold, dt, faces, sub, webm, up, ut, ur, ud, ded, stc⟩ := o
  cases reg with
  | error e => simp [tryBlock, heldCredits, preDeductOk, allOk, stepOk]
  | ok _ =>
  cases hold with
  | error e => simp [tryBlock, heldCredits, preDeductOk, allOk, stepOk]
  | ok credits =>
  cases dt with
  | error e => simp [tryBlock, heldCredits, preDeductOk, allOk, stepOk]
  | ok _ =>
  rcases hfa : downloadFaces faces 0 with pe | fl
  · obtain ⟨e, fl⟩ := pe
    have hfo : facesOk faces = false := by
      cases hfo : facesOk faces
      · rfl
      · rw [downloadFaces_of_facesOk faces 0 hfo] at hfa
        cases hfa
    simp [tryBlock, hfa, heldCredits, preDeductOk, allOk, stepOk, hfo]
  · have hfo : facesOk faces = true := facesOk_of_downloadFaces_ok faces 0 fl hfa
    have hfl : fl = (List.range' 0 faces.length).flatMap
        (fun j => [FileId.src j, FileId.ref j]) := by
      have h2 := downloadFaces_of_facesOk faces 0 hfo
      rw [hfa] at h2
      exact Except.ok.inj h2
    cases sub with
    | error e => simp [tryBlock, hfa, heldCredits, preDeductOk, allOk, stepOk, hfo]
    | ok rc =>
    by_cases hrc : rc = 0
    · subst hrc
      cases webm with
      | error e => simp [tryBlock, hfa, heldCredits, preDeductOk, allOk, stepOk, hfo]
      | ok _ =>
      cases up with
      | error e => simp [tryBlock, hfa, heldCredits, preDeductOk, allOk, stepOk, hfo]
      | ok _ =>
      cases ut with
      | error e => simp [tryBlock, hfa, heldCredits, preDeductOk, allOk, stepOk, hfo]
      | ok _ =>
      cases ur with
      | error e => simp [tryBlock, hfa, heldCredits, preDeductOk, allOk, stepOk, hfo]
      | ok _ =>
      cases ud with
      | error e => simp [tryBlock, hfa, heldCredits, preDeductOk, allOk, stepOk, hfo]
      | ok _ =>
      cases ded with
      | error e => simp [tryBlock, hfa, heldCredits, preDeductOk, allOk, stepOk, hfo]
      | ok _ =>
      cases stc with
      | error e => simp [tryBlock, hfa, heldCredits, preDeductOk, allOk, stepOk, hfo]
      | ok _ =>
        refine ⟨by simp [tryBlock, hfa, heldCredits], ?_, ?_, ?_⟩
        · simp [tryBlock, hfa, preDeductOk, stepOk, hfo]
        · simp [tryBlock, hfa, allOk, preDeductOk, stepOk, hfo]
        · intro _
          simp [tryBlock, hfa, hfl, success_created, List.range_eq_range']
    · simp [tryBlock, hfa, heldCredits, preDeductOk, allOk, stepOk, hfo, hrc]

lemma run_cleanup_eq (fs : List FileId) : ∀ rms : List Bool, run_cleanup fs rms = fs := by
  induction fs with
  | nil => intro rms; rfl
  | cons f fs ih => intro rms; simp [run_cleanup, ih]

lemma run_handler_refunds (o : Oracle) (credits : Option Nat) :
    (run_handler o credits).1 =
      if creditsTruthy credits && stepOk o.registerError then 1 else 0 := by
  rcases hre : o.registerError with e2 | u
  · simp [run_handler, hre, stepOk]
  · by_cases hct : creditsTruthy credits
    · rcases hrf : o.refundCall with e2 | u2
      · simp [run_handler, hre, hrf, stepOk, hct]
      · rcases hsf : o.setStatusFailed with e2 | u3 <;>
          simp [run_handler, hre, hrf, hsf, stepOk, hct]
    · rcases hsf : o.setStatusFailed with e2 | u3 <;>
        simp [run_handler, hre, hsf, stepOk, hct]

lemma run_handler_complete_iff (o : Oracle) (credits : Option Nat) :
    (run_handler o credits).2 = none ↔ handler_completes o credits = true := by
  rcases hre : o.registerError with e2 | u
  · simp [run_handler, handler_completes, hre, stepOk]
  · by_cases hct : creditsTruthy credits
    · rcases hrf : o.refundCall with e2 | u2
      · simp [run_handler, handler_completes, hre, hrf, stepOk, hct]
      · rcases hsf : o.setStatusFailed with e2 | u3 <;>
          simp [run_handler, handler_completes, hre, hrf, hsf, stepOk, hct]
    · rcases hsf : o.setStatusFailed with e2 | u3 <;>
        simp [run_handler, handler_completes, hre, hsf, stepOk, hct]

lemma src_injective : Function.Injective FileId.src := by
  intro a b h
  injection h

lemma ref_injective : Function.Injective FileId.ref := by
  intro a b h
  injection h

lemma success_cleanup_nodup (n : Nat) : (success_cleanup n).Nodup := by
  have hA : (List.map FileId.src (List.range n)).Nodup :=
    (List.nodup_range n).map src_injective
  have hB : (List.map FileId.ref (List.range n)).Nodup :=
    (List.nodup_range n).map ref_injective
  have hC : ([FileId.output, FileId.previewWebm, FileId.thumbnail] : List FileId).Nodup := by
    decide
  have hAB : (List.map FileId.src (List.range n) ++ List.map FileId.ref (List.range n)).Nodup := by
    refine hA.append hB ?_
    intro a ha hb
    simp only [List.mem_map, List.mem_range] at ha hb
    obtain ⟨i, _, rfl⟩ := ha
    obtain ⟨j, _, hj⟩ := hb
    cases hj
  have hABC : ((List.map FileId.src (List.range n) ++ List.map FileId.ref (List.range n))
      ++ [FileId.output, FileId.previewWebm, FileId.thumbnail]).Nodup := by
    refine hAB.append hC ?_
    intro a ha hb
    simp only [List.mem_append, List.mem_map, List.mem_range] at ha
    rcases ha with ⟨i, _, rfl⟩ | ⟨i, _, rfl⟩ <;> simp at hb
  have heq : success_cleanup n = FileId.target ::
      ((List.map FileId.src (List.range n) ++ List.map FileId.ref (List.range n))
        ++ [FileId.output, FileId.previewWebm, FileId.thumbnail]) := by
    simp [success_cleanup, List.append_assoc]
  rw [heq, List.nodup_cons]
  refine ⟨?_, hABC⟩
  intro hmem
  simp only [List.mem_append, List.mem_map, List.mem_range, List.mem_cons,
    List.not_mem_nil, or_false] at hmem
  rcases hmem with (⟨i, _, h⟩ | ⟨i, _, h⟩) | h
  · cases h
  · cases h
  · rcases h with h | h | h <;> cases h

lemma mem_success_cleanup_of_created (n : Nat) (f : FileId) (hf : f ∈ success_created n) :
    f ∈ success_cleanup n := by
  simp only [success_created, List.mem_cons, List.mem_append, List.mem_flatMap,
    List.mem_range, List.not_mem_nil, or_false] at hf
  simp only [success_cleanup, List.mem_cons, List.mem_append, List.mem_map, List.mem_range,
    List.not_mem_nil, or_false]
  rcases hf with (rfl | ⟨j, hj, rfl | rfl⟩) | (rfl | rfl | rfl)
  · exact Or.inl (Or.inl (Or.inl rfl))
  · exact Or.inl (Or.inl (Or.inr ⟨j, hj, rfl⟩))
  · exact Or.inl (Or.inr ⟨j, hj, rfl⟩)
  · exact Or.inr (Or.inl rfl)
  · exact Or.inr (Or.inr (Or.inl rfl))
  · exact Or.inr (Or.inr (Or.inr rfl))

lemma count_success_cleanup (n : Nat) (f : FileId) (hf : f ∈ success_created n) :
    (success_cleanup n).count f = 1 :=
  List.count_eq_one_of_mem (success_cleanup_nodup n) (mem_success_cleanup_of_created n f hf)

set_option maxRecDepth 4000 in
lemma sched_step_reachable :
    ∀ s ∈ reachable_states, ∀ t : Bool, in_reach_opt (sched_step s t) = true := by
  intro s hs t
  fin_cases hs <;> fin_cases t <;> decide

set_option maxRecDepth 4000 in
lemma reachable_no_interleave :
    ∀ s ∈ reachable_states, s.2.2.2 ≠ Phase.interleaved := by
  intro s hs
  fin_cases hs <;> decide

lemma run_sched_reachable (sched : List Bool) :
    ∀ s s' : SchedState, s ∈ reachable_states → run_sched s sched = some s' →
      s' ∈ reachable_states := by
  induction sched with
  | nil =>
    intro s s' hs hrun
    simp only [run_sched] at hrun
    obtain rfl := Option.some.inj hrun
    exact hs
  | cons t rest ih =>
    intro s s' hs hrun
    simp only [run_sched] at hrun
    rcases hstep : sched_step s t with _ | s1
    · rw [hstep] at hrun
      cases hrun
    · rw [hstep] at hrun
      have h1 := sched_step_reachable s hs t
      rw [hstep] at h1
      simp only [in_reach_opt, decide_eq_true_eq] at h1
      exact ih s1 s' h1 hrun

/-- Claim C3 counterexample.  The claim says a read for a job id returns the
last value written *for that same job id*; but `read_progress_tempfile`
takes no job id and `write_progress_tempfile` overwrites one global file, so
after job "A" writes 30 and job "B" writes 80, a read on behalf of "A"
returns 80, not the 30 last written for "A". -/
theorem c3_counterexample :
    read_progress_tempfile true (apply_writes c3_trace) = 80 ∧
    spec_read_for_job "A" c3_trace = 30 ∧
    read_progress_tempfile true (apply_writes c3_trace) ≠ spec_read_for_job "A" c3_trace := by
  decide

/-- Claim C3 as amended: the progress channel is one global last-write-wins
cell shared by all jobs.  A failed read returns 0; a read of the
never-written file returns 0; otherwise a read returns the value of the last
*successful* write by any job (failed writes are swallowed and leave the
file unchanged). -/
theorem c3_global_channel (evs : List WriteEv) (ok : Bool) (file : Option Nat) :
    (ok = false → read_progress_tempfile ok file = 0)
  ∧ (apply_writes evs = none → read_progress_tempfile true (apply_writes evs) = 0)
  ∧ read_progress_tempfile true (apply_writes evs) =
      ((evs.filter (fun e => e.ok)).getLast?).elim 0 (fun e => e.percent) := by
  refine ⟨fun h => by rw [h]; rfl, fun h => by rw [h]; rfl, ?_⟩
  rw [apply_writes_eq_last_ok]
  rcases hl : (evs.filter (fun e => e.ok)).getLast? with _ | e
  · simp [read_progress_tempfile, last_ok_write, hl]
  · simp [read_progress_tempfile, last_ok_write, hl]

/-- Witness for `c3_global_channel` at a concrete trace and a failed read. -/
theorem c3_witness :
    read_progress_tempfile false (some 7) = 0 ∧
    read_progress_tempfile true (apply_writes c3_trace) =
      ((c3_trace.filter (fun e => e.ok)).getLast?).elim 0 (fun e => e.percent) :=
  ⟨(c3_global_channel c3_trace false (some 7)).1 rfl,
   (c3_global_channel c3_trace false (some 7)).2.2⟩

/-- Claim C4: the progress published by `unified_progress_line` is
non-decreasing as completed units grow, the swapper (stage A) percent lies
in [0,50] and equals exactly 50 when all its units are done, the enhancer
(stage B) percent lies in [50,100] and equals exactly 100 when all its units
are done, and any stage-A value is at most any stage-B value, so the
published sequence of a two-stage run is non-decreasing. -/
theorem c4_stage_progress (c c' t t' : Nat) :
    (c ≤ c' → unified_percent .swapper c t ≤ unified_percent .swapper c' t)
  ∧ (c ≤ c' → unified_percent .enhancer c t ≤ unified_percent .enhancer c' t)
  ∧ (c ≤ t → unified_percent .swapper c t ≤ 50)
  ∧ (t ≠ 0 → unified_percent .swapper t t = 50)
  ∧ (50 ≤ unified_percent .enhancer c t)
  ∧ (c ≤ t → unified_percent .enhancer c t ≤ 100)
  ∧ (t ≠ 0 → unified_percent .enhancer t t = 100)
  ∧ (c ≤ t → unified_percent .swapper c t ≤ unified_percent .enhancer c' t') :=
  ⟨unified_percent_mono _ t c c', unified_percent_mono _ t c c',
   unified_percent_swapper_le c t, unified_percent_swapper_top t,
   unified_percent_enhancer_ge c t, unified_percent_enhancer_le c t,
   unified_percent_enhancer_top t,
   fun h => Nat.le_trans (unified_percent_swapper_le c t h) (unified_percent_enhancer_ge c' t')⟩

/-- Witness for `c4_stage_progress` at concrete counts (3 of 10 done, then 5
of 10; both stages complete at 10 of 10). -/
theorem c4_witness :
    unified_percent .swapper 3 10 ≤ unified_percent .swapper 5 10 ∧
    unified_percent .swapper 10 10 = 50 ∧
    unified_percent .enhancer 10 10 = 100 ∧
    unified_percent .swapper 10 10 ≤ unified_percent .enhancer 0 10 :=
  ⟨(c4_stage_progress 3 5 10 10).1 (by decide),
   (c4_stage_progress 3 5 10 10).2.2.2.1 (by decide),
   (c4_stage_progress 3 5 10 10).2.2.2.2.2.2.1 (by decide),
   (c4_stage_progress 10 0 10 10).2.2.2.2.2.2.2 (by decide)⟩

/-- Claim C5 counterexample.  With N = 10 units, worker count W = 4 and
batch size B = 1, the code's chunk size is `max(10 // 4 * 1, 1) = 2`, not
W×B = 4: all five chunks have 2 < 4 units, so "at most one chunk has fewer
than W×B units" fails. -/
theorem c5_counterexample :
    queue_per_future c5_units.length 4 1 = 2 ∧
    (multi_process_chunks c5_units 4 1).map List.length = [2, 2, 2, 2, 2] ∧
    ¬ ((multi_process_chunks c5_units 4 1).countP
        (fun c => decide (c.length < 4 * 1)) ≤ 1) := by
  have hu : c5_units = [0, 1, 2, 3, 4, 5, 6, 7, 8, 9] := by decide
  have hk : queue_per_future c5_units.length 4 1 = 2 := by decide
  have hc : multi_process_chunks c5_units 4 1 =
      [[0, 1], [2, 3], [4, 5], [6, 7], [8, 9]] := by
    rw [multi_process_chunks, hk, hu]
    simp [pick_chunks]
  refine ⟨hk, ?_, ?_⟩ <;> rw [hc] <;> decide

/-- Claim C5 as amended: the dispatch engine cuts the payload list into
successive chunks of exactly `queue_per_future = max(N // W × B, 1)` units
(not W×B): concatenating the chunks in order gives back the unit list (so
every unit is in exactly one chunk, no gaps or duplicates), chunk sizes sum
to exactly N, every chunk except possibly the last has exactly
`queue_per_future` units, and at most one chunk (the last) is shorter. -/
theorem c5_partition {α : Type} (units : List α) (threads queues : Nat) :
    (multi_process_chunks units threads queues).flatten = units
  ∧ ((multi_process_chunks units threads queues).map List.length).sum = units.length
  ∧ (∀ c ∈ (multi_process_chunks units threads queues).dropLast,
       c.length = queue_per_future units.length threads queues)
  ∧ (multi_process_chunks units threads queues).countP
      (fun c => decide (c.length < queue_per_future units.length threads queues)) ≤ 1 := by
  have hk := queue_per_future_pos units.length threads queues
  refine ⟨pick_chunks_flatten _ _, ?_,
    pick_chunks_dropLast_length _ hk _, pick_chunks_short_count _ hk _⟩
  conv_rhs => rw [← pick_chunks_flatten (queue_per_future units.length threads queues) units]
  rw [List.length_flatten]
  rfl

/-- Witness for `c5_partition` on ten concrete units with 4 workers and
batch size 1. -/
theorem c5_witness :
    (multi_process_chunks c5_units 4 1).flatten = c5_units ∧
    ((multi_process_chunks c5_units 4 1).map List.length).sum = c5_units.length ∧
    (multi_process_chunks c5_units 4 1).countP
      (fun c => decide (c.length < queue_per_future c5_units.length 4 1)) ≤ 1 :=
  ⟨(c5_partition c5_units 4 1).1, (c5_partition c5_units 4 1).2.1,
   (c5_partition c5_units 4 1).2.2.2⟩

/-- Claim C1 counterexample.  The claim says every temp file created during
a job gets exactly one delete attempt on every execution path; but
`temp_files_to_clean` is extended only on the success path (line 165), so
when the first face download fails the already-downloaded target file gets
zero delete attempts. -/
theorem c1_counterexample :
    FileId.target ∈ (process_swap_job c1_oracle []).created ∧
    (process_swap_job c1_oracle []).deleteAttempts = [] ∧
    (process_swap_job c1_oracle []).result = some 500 := by
  decide

/-- Claim C1 as amended: the `finally` loop attempts exactly the files in
`temp_files_to_clean`, and that list is populated only when the job
succeeds: on any failing path it is empty and no delete attempt occurs; on
the success path every file created during the job receives exactly one
best-effort delete attempt, with delete failures (the `rms` outcomes)
ignored. -/
theorem c1_cleanup (o : Oracle) (rms : List Bool) :
    (process_swap_job o rms).deleteAttempts = (process_swap_job o rms).cleanupList
  ∧ ((process_swap_job o rms).result ≠ some 200 → (process_swap_job o rms).cleanupList = [])
  ∧ ((process_swap_job o rms).result = some 200 →
       (process_swap_job o rms).cleanupList = success_cleanup o.faceDownloads.length ∧
       ∀ f ∈ (process_swap_job o rms).created,
         (process_swap_job o rms).deleteAttempts.count f = 1) := by
  have hchar := tryBlock_char o
  rcases ht : tryBlock o with ⟨st, e⟩
  rw [ht] at hchar
  obtain ⟨h1, h2, h3, h4⟩ := hchar
  cases e with
  | none =>
    have hcr : st.created = success_created o.faceDownloads.length := h4 rfl
    refine ⟨by simp [process_swap_job, ht, run_cleanup_eq], ?_, ?_⟩
    · intro h
      simp [process_swap_job, ht] at h
    · intro _
      constructor
      · simp [process_swap_job, ht, run_cleanup_eq]
      · intro f hf
        have hred : (process_swap_job o rms).deleteAttempts =
            success_cleanup o.faceDownloads.length := by
          simp [process_swap_job, ht, run_cleanup_eq]
        have hcrd : (process_swap_job o rms).created =
            success_created o.faceDownloads.length := by
          simp [process_swap_job, ht, hcr]
        rw [hred]
        rw [hcrd] at hf
        exact count_success_cleanup _ f hf
  | some exn =>
    refine ⟨by simp [process_swap_job, ht, run_cleanup_eq], ?_, ?_⟩
    · intro _
      simp [process_swap_job, ht]
    · intro h
      exfalso
      simp only [process_swap_job, ht] at h
      rcases hh : (run_handler o st.credits).2 with _ | e2 <;> rw [hh] at h <;>
        cases exn <;> simp at h

/-- Witness for `c1_cleanup`: on the successful one-face job every created
file — the target among them — is attempted exactly once, even though the
first `remove_file` call fails. -/
theorem c1_witness :
    (process_swap_job c1_ok_oracle [false]).deleteAttempts =
      (process_swap_job c1_ok_oracle [false]).cleanupList ∧
    (process_swap_job c1_ok_oracle [false]).cleanupList =
      success_cleanup c1_ok_oracle.faceDownloads.length ∧
    (process_swap_job c1_ok_oracle [false]).deleteAttempts.count FileId.target = 1 :=
  ⟨(c1_cleanup c1_ok_oracle [false]).1,
   ((c1_cleanup c1_ok_oracle [false]).2.2 (by decide)).1,
   ((c1_cleanup c1_ok_oracle [false]).2.2 (by decide)).2 FileId.target (by decide)⟩

/-- Claim C2 counterexample.  The claim says that when any step after the
hold fails, refund is called exactly once and deduct never; but when the
step that fails is `update_swap_status_local('completed')` — after the
deduct — the job fails (code 500) with one deduct call *and* one refund
call, so the hold is terminated twice and "deduct never" is violated. -/
theorem c2_counterexample :
    (process_swap_job c2_oracle []).result = some 500 ∧
    heldCredits c2_oracle = some 5 ∧
    (process_swap_job c2_oracle []).deductCalls = 1 ∧
    (process_swap_job c2_oracle []).refundCalls = 1 := by
  decide

/-- Claim C2 as amended: the hold is placed at most once and each of deduct
and refund is called at most once per job.  On success deduct is called
exactly once and refund never.  On any failure of the `try` block the refund
is invoked exactly once iff the held amount is truthy and the handler's
preceding `register_error` call returned (`if credits_required:` skips the
refund both when no hold exists and when the held amount is 0; a raising
`register_error` skips it too and the handler's exception propagates); in
particular, whenever a failing run returns its (body, code) pair, refund
fired exactly once iff the held amount is truthy.  Deduct has been called
iff every step before the deduct call succeeded — so a failure in the deduct
call itself or in the completion status update yields both one deduct call
and one refund. -/
theorem c2_hold_settlement (o : Oracle) (rms : List Bool) :
    (process_swap_job o rms).holdCalls ≤ 1
  ∧ (process_swap_job o rms).deductCalls ≤ 1
  ∧ (process_swap_job o rms).refundCalls ≤ 1
  ∧ ((process_swap_job o rms).result = some 200 →
       (process_swap_job o rms).deductCalls = 1 ∧ (process_swap_job o rms).refundCalls = 0)
  ∧ ((tryBlock o).2 ≠ none →
       (process_swap_job o rms).refundCalls =
         if creditsTruthy (heldCredits o) && stepOk o.registerError then 1 else 0)
  ∧ ((process_swap_job o rms).propagated = none →
       (process_swap_job o rms).result ≠ some 200 →
       (process_swap_job o rms).refundCalls =
         if creditsTruthy (heldCredits o) then 1 else 0)
  ∧ ((process_swap_job o rms).deductCalls = 1 ↔ preDeductOk o = true) := by
  have hchar := tryBlock_char o
  rcases ht : tryBlock o with ⟨st, e⟩
  rw [ht] at hchar
  obtain ⟨h1, h2, h3, h4⟩ := hchar
  have h1' : st.credits = heldCredits o := h1
  have h2' : st.deductCalls = (if preDeductOk o = true then 1 else 0) := h2
  cases e with
  | none =>
    have hpre : preDeductOk o = true := by
      have h := h3.mp rfl
      simp only [allOk, Bool.and_eq_true] at h
      exact h.1.1
    refine ⟨?_, ?_, ?_, ?_, ?_, ?_, ?_⟩
    · simp only [process_swap_job, ht]
      cases o.registerDoc <;> simp
    · simp [process_swap_job, ht, h2', hpre]
    · simp [process_swap_job, ht]
    · intro _
      exact ⟨by simp [process_swap_job, ht, h2', hpre], by simp [process_swap_job, ht]⟩
    · intro h
      exact absurd rfl h
    · intro _ h2f
      simp [process_swap_job, ht] at h2f
    · simp [process_swap_job, ht, h2', hpre]
  | some exn =>
    refine ⟨?_, ?_, ?_, ?_, ?_, ?_, ?_⟩
    · simp only [process_swap_job, ht]
      cases o.registerDoc <;> simp
    · simp only [process_swap_job, ht]
      rw [h2']
      by_cases hp : preDeductOk o = true <;> simp [hp]
    · simp only [process_swap_job, ht]
      rw [run_handler_refunds]
      split <;> omega
    · intro hres
      exfalso
      simp only [process_swap_job, ht] at hres
      rcases hh : (run_handler o st.credits).2 with _ | e2 <;> rw [hh] at hres <;>
        cases exn <;> simp at hres
    · intro _
      simp only [process_swap_job, ht]
      rw [run_handler_refunds, h1']
    · intro hprop _
      simp only [process_swap_job, ht] at hprop ⊢
      have hcomp : handler_completes o st.credits = true :=
        (run_handler_complete_iff o st.credits).mp hprop
      have hre : stepOk o.registerError = true := by
        simp only [handler_completes, Bool.and_eq_true] at hcomp
        exact hcomp.1.1
      rw [run_handler_refunds, h1', hre, Bool.and_true]
    · simp only [process_swap_job, ht]
      rw [h2']
      by_cases hp : preDeductOk o = true <;> simp [hp]

/-- Witness for `c2_hold_settlement`: on the successful job, deduct fires
exactly once and refund never. -/
theorem c2_witness :
    (process_swap_job c2_ok_oracle []).deductCalls = 1 ∧
    (process_swap_job c2_ok_oracle []).refundCalls = 0 ∧
    (process_swap_job c2_ok_oracle []).holdCalls ≤ 1 :=
  ⟨((c2_hold_settlement c2_ok_oracle []).2.2.2.1 (by decide)).1,
   ((c2_hold_settlement c2_ok_oracle []).2.2.2.1 (by decide)).2,
   (c2_hold_settlement c2_ok_oracle []).1⟩

/-- Claim C10 counterexample.  The claim says `process_swap_job` returns a
(body, code) pair for every input rather than propagating an exception; but
when the target download raises and the `register_error` call inside the
`except Exception` handler raises too, the handler's exception escapes
`process_swap_job`: no pair is returned and `execute_job` never writes a
terminal status for the job. -/
theorem c10_counterexample :
    (process_swap_job c10_prop_oracle []).result = none ∧
    (process_swap_job c10_prop_oracle []).propagated = some (.other "error store down") ∧
    (execute_job c10_prop_oracle []).1 = none := by
  decide

/-- Claim C10 as amended: when the calls inside the reached `except`
handler all return, `process_swap_job` returns a (body, code) pair — 200
exactly when every `try` step succeeded, 400 exactly when the first failure
was a `CustomException`, 500 exactly when it was any other exception — and
`execute_job` then sets the cache entry to COMPLETED iff the code is 200,
else FAILED.  If a handler call raises, that exception propagates instead
(exactly when the `try` block failed and the handler did not complete) and
`execute_job` writes no status at all. -/
theorem c10_code_mapping (o : Oracle) (rms : List Bool) :
    ((process_swap_job o rms).propagated = none →
       ((process_swap_job o rms).result = some 200 ∨
        (process_swap_job o rms).result = some 400 ∨
        (process_swap_job o rms).result = some 500))
  ∧ ((process_swap_job o rms).result = some 200 ↔ allOk o = true)
  ∧ ((process_swap_job o rms).result = some 400 ↔
       ((∃ msg, (tryBlock o).2 = some (Exn.custom msg)) ∧
        handler_completes o (heldCredits o) = true))
  ∧ ((process_swap_job o rms).result = some 500 ↔
       ((∃ msg, (tryBlock o).2 = some (Exn.other msg)) ∧
        handler_completes o (heldCredits o) = true))
  ∧ ((process_swap_job o rms).propagated ≠ none ↔
       ((tryBlock o).2 ≠ none ∧ handler_completes o (heldCredits o) = false))
  ∧ ((execute_job o rms).1 = some "COMPLETED" ↔ (process_swap_job o rms).result = some 200)
  ∧ ((execute_job o rms).1 = some "FAILED" ↔
       ((process_swap_job o rms).propagated = none ∧
        (process_swap_job o rms).result ≠ some 200))
  ∧ ((execute_job o rms).1 = none ↔ (process_swap_job o rms).propagated ≠ none) := by
  have hchar := tryBlock_char o
  rcases ht : tryBlock o with ⟨st, e⟩
  rw [ht] at hchar
  obtain ⟨h1, h2, h3, h4⟩ := hchar
  have h1' : st.credits = heldCredits o := h1
  cases e with
  | none =>
    have hok : allOk o = true := h3.mp rfl
    refine ⟨?_, ?_, ?_, ?_, ?_, ?_, ?_, ?_⟩
    · intro _
      exact Or.inl (by simp [process_swap_job, ht])
    · simp [process_swap_job, ht, hok]
    · constructor
      · intro h
        simp [process_swap_job, ht] at h
      · rintro ⟨⟨m, hm⟩, _⟩
        simp at hm
    · constructor
      · intro h
        simp [process_swap_job, ht] at h
      · rintro ⟨⟨m, hm⟩, _⟩
        simp at hm
    · constructor
      · intro h
        simp [process_swap_job, ht] at h
      · rintro ⟨hcon, _⟩
        exact absurd rfl hcon
    · simp [process_swap_job, execute_job, ht]
    · constructor
      · intro h
        simp [process_swap_job, execute_job, ht] at h
      · rintro ⟨_, hne⟩
        exact absurd (by simp [process_swap_job, ht]) hne
    · simp [process_swap_job, execute_job, ht]
  | some exn =>
    rcases hh : (run_handler o st.credits).2 with _ | e2
    · have hcomp : handler_completes o (heldCredits o) = true := by
        rw [← h1']
        exact (run_handler_complete_iff o st.credits).mp hh
      cases exn with
      | custom m =>
        have hres : (process_swap_job o rms).result = some 400 := by
          simp only [process_swap_job, ht]
          rw [hh]
        have hprop : (process_swap_job o rms).propagated = none := by
          simp only [process_swap_job, ht]
          rw [hh]
        have hex1 : (execute_job o rms).1 = some "FAILED" := by
          simp only [execute_job]
          rw [hres]
          simp
        refine ⟨fun _ => Or.inr (Or.inl hres), ?_, ?_, ?_, ?_, ?_, ?_, ?_⟩
        · constructor
          · intro h
            rw [hres] at h
            simp at h
          · intro h
            have := h3.mpr h
            simp at this
        · exact ⟨fun _ => ⟨⟨m, rfl⟩, hcomp⟩, fun _ => hres⟩
        · constructor
          · intro h
            rw [hres] at h
            simp at h
          · rintro ⟨⟨m2, hm⟩, _⟩
            simp at hm
        · constructor
          · intro h
            rw [hprop] at h
            exact absurd rfl h
          · rintro ⟨_, hfc⟩
            simp [hcomp] at hfc
        · constructor
          · intro h
            rw [hex1] at h
            simp at h
          · intro h
            rw [hres] at h
            simp at h
        · exact ⟨fun _ => ⟨hprop, by rw [hres]; simp⟩, fun _ => hex1⟩
        · constructor
          · intro h
            rw [hex1] at h
            simp at h
          · intro h
            rw [hprop] at h
            exact absurd rfl h
      | other m =>
        have hres : (process_swap_job o rms).result = some 500 := by
          simp only [process_swap_job, ht]
          rw [hh]
        have hprop : (process_swap_job o rms).propagated = none := by
          simp only [process_swap_job, ht]
          rw [hh]
        have hex1 : (execute_job o rms).1 = some "FAILED" := by
          simp only [execute_job]
          rw [hres]
          simp
        refine ⟨fun _ => Or.inr (Or.inr hres), ?_, ?_, ?_, ?_, ?_, ?_, ?_⟩
        · constructor
          · intro h
            rw [hres] at h
            simp at h
          · intro h
            have := h3.mpr h
            simp at this
        · constructor
          · intro h
            rw [hres] at h
            simp at h
          · rintro ⟨⟨m2, hm⟩, _⟩
            simp at hm
        · exact ⟨fun _ => ⟨⟨m, rfl⟩, hcomp⟩, fun _ => hres⟩
        · constructor
          · intro h
            rw [hprop] at h
            exact absurd rfl h
          · rintro ⟨_, hfc⟩
            simp [hcomp] at hfc
        · constructor
          · intro h
            rw [hex1] at h
            simp at h
          · intro h
            rw [hres] at h
            simp at h
        · exact ⟨fun _ => ⟨hprop, by rw [hres]; simp⟩, fun _ => hex1⟩
        · constructor
          · intro h
            rw [hex1] at h
            simp at h
          · intro h
            rw [hprop] at h
            exact absurd rfl h
    · have hncomp : handler_completes o (heldCredits o) = false := by
        rw [← h1']
        cases hc : handler_completes o st.credits
        · rfl
        · have := (run_handler_complete_iff o st.credits).mpr hc
          rw [hh] at this
          cases this
      have hres : (process_swap_job o rms).result = none := by
        simp only [process_swap_job, ht]
        rw [hh]
      have hprop : (process_swap_job o rms).propagated = some e2 := by
        simp only [process_swap_job, ht]
        rw [hh]
      have hex1 : (execute_job o rms).1 = none := by
        simp only [execute_job]
        rw [hres]
      refine ⟨?_, ?_, ?_, ?_, ?_, ?_, ?_, ?_⟩
      · intro hp
        rw [hprop] at hp
        cases hp
      · constructor
        · intro h
          rw [hres] at h
          cases h
        · intro h
          have := h3.mpr h
          simp at this
      · constructor
        · intro h
          rw [hres] at h
          cases h
        · rintro ⟨_, hc⟩
          rw [hncomp] at hc
          cases hc
      · constructor
        · intro h
          rw [hres] at h
          cases h
        · rintro ⟨_, hc⟩
          rw [hncomp] at hc
          cases hc
      · constructor
        · intro _
          exact ⟨by simp, hncomp⟩
        · intro _
          rw [hprop]
          simp
      · constructor
        · intro h
          rw [hex1] at h
          cases h
        · intro h
          rw [hres] at h
          cases h
      · constructor
        · intro h
          rw [hex1] at h
          cases h
        · rintro ⟨hp, _⟩
          rw [hprop] at hp
          cases hp
      · constructor
        · intro _
          rw [hprop]
          simp
        · intro _
          exact hex1

/-- Witness for `c10_code_mapping`: the `CustomException` job (whose
handler completes) returns code 400 and the cache entry is set to FAILED. -/
theorem c10_witness :
    (process_swap_job c10_oracle []).result = some 400 ∧
    (execute_job c10_oracle []).1 = some "FAILED" :=
  ⟨((c10_code_mapping c10_oracle []).2.2.1).mpr
      ⟨⟨"insufficient credits", by decide⟩, by decide⟩,
   ((c10_code_mapping c10_oracle []).2.2.2.2.2.2.1).mpr ⟨by decide, by decide⟩⟩


/-- Claim C8: a status query for a job id absent from the cache returns the
fixed structured error object `{"error": {"code": 404, "message": "Job not
found"}}` rather than raising, and the latest-status query with an empty
cache returns the idle indicator `{"status": "idle"}`. -/
theorem c8_status_fallbacks (jobs : List (String × JobEntry)) (chOk : Bool) (ch : Option Nat)
    (jobId : String) :
    (lookupJob jobs jobId = none →
       get_job_status jobs chOk ch jobId = .notFound 404 "Job not found")
  ∧ get_latest_job_status [] chOk ch = .idle := by
  constructor
  · intro h
    simp [get_job_status, h]
  · rfl

/-- Witness for `c8_status_fallbacks`: empty cache, unknown id. -/
theorem c8_witness :
    get_job_status [] true none "missing" = .notFound 404 "Job not found" ∧
    get_latest_job_status [] true none = .idle :=
  ⟨(c8_status_fallbacks [] true none "missing").1 rfl,
   (c8_status_fallbacks [] true none "missing").2⟩

/-- Claim C9: when the submit payload has no "faces" key, `swap` first
inserts the `IN_PROGRESS` / progress-0 entry into the status cache (line
68), then raises `KeyError` at `params["faces"]` (line 75) — before
`background_tasks.add_task` (line 76) and before the `{"jobId": ...}`
response: no jobId reaches the client, no background task is scheduled, and
since only the scheduled `execute_job` task ever rewrites the entry, the
cached entry stays `IN_PROGRESS`. -/
theorem c9_missing_faces (p : SwapParams) (jobId : String)
    (cache : List (String × JobEntry)) (hfresh : lookupJob cache jobId = none)
    (hfaces : p.faces = none) :
    (swap p jobId cache).response = none
  ∧ lookupJob (swap p jobId cache).cache jobId =
      some { status := "IN_PROGRESS", swapId := p.swapId, userId := p.userId,
             projectId := p.projectId.getD "default", progress := 0 }
  ∧ (swap p jobId cache).scheduled = [] := by
  have hf : cache.find? (fun q => q.1 == jobId) = none := by
    simp only [lookupJob, Option.map_eq_none'] at hfresh
    exact hfresh
  refine ⟨?_, ?_, ?_⟩
  · simp [swap, hfaces]
  · simp [swap, hfaces, lookupJob, List.find?_append, hf]
  · simp [swap, hfaces]

/-- Witness for `c9_missing_faces`: a concrete faces-less payload against an
empty cache. -/
theorem c9_witness :
    (swap ⟨none, some "u1", none, none⟩ "job-1" []).response = none
  ∧ lookupJob (swap ⟨none, some "u1", none, none⟩ "job-1" []).cache "job-1" =
      some { status := "IN_PROGRESS", swapId := none, userId := some "u1",
             projectId := "default", progress := 0 }
  ∧ (swap ⟨none, some "u1", none, none⟩ "job-1" []).scheduled = [] :=
  c9_missing_faces ⟨none, some "u1", none, none⟩ "job-1" [] rfl rfl

/-- Claim C7 counterexample.  The claim says the mutual-exclusion critical
section spans exactly step 4 (the transformation); but in `execute_job` the
`with job_lock:` block wraps the entire `process_swap_job` call, so every
saga step — the credit hold among them — lies inside the critical
section. -/
theorem c7_counterexample :
    steps_inside_lock execute_job_events false ≠ spec_serialized_steps ∧
    SagaStep.creditHold ∈ steps_inside_lock execute_job_events false := by
  decide

/-- Claim C7 as amended: the single global mutex serialises whole jobs, not
just the transformation step.  The critical section of one `execute_job`
run contains all nine saga steps; consequently, in every
mutual-exclusion-respecting interleaving of two `execute_job` invocations
the step events of the two jobs never interleave (one job's steps all
precede the other's), while complete schedules do exist — e.g. all of job A
then all of job B. -/
theorem c7_whole_job_serialized :
    steps_inside_lock execute_job_events false = saga_steps
  ∧ (∀ sched : List Bool, ∀ s : SchedState,
       run_sched init_sched sched = some s → s.2.2.2 ≠ Phase.interleaved)
  ∧ run_sched init_sched (List.replicate 11 false ++ List.replicate 11 true) =
      some (11, 11, none, Phase.aThenB) := by
  refine ⟨by decide, ?_, by decide⟩
  intro sched s hrun
  have hs := run_sched_reachable sched init_sched s (by decide) hrun
  exact reachable_no_interleave s hs

/-- Witness for `c7_whole_job_serialized`: the completed serial schedule
ends in a non-interleaved phase. -/
theorem c7_witness :
    (((11 : Fin 12), (11 : Fin 12), (none : Option Bool), Phase.aThenB) : SchedState).2.2.2 ≠
      Phase.interleaved :=
  c7_whole_job_serialized.2.1 (List.replicate 11 false ++ List.replicate 11 true) _ (by decide)

/-- Claim C6 counterexample.  The claim says each chunk completion updates
the shared per-stage counter under a linearizable (mutex- or atomic-guarded)
update; but `unified_state["swapper_current"] += n` is an unguarded read of
the entry followed by a write of the sum, and in the interleaving where both
workers read before either writes, two increments of 1 from 0 leave the
counter at 1 — a lost update. -/
theorem c6_counterexample : ¬ counter_update_linearizable := fun h =>
  absurd
    (h [CAct.read false, CAct.read true, CAct.write false, CAct.write true] (by decide) 1 1)
    (by decide)

/-- Claim C6 as amended: each `update_progress(n)` call adds `n` to the
active stage's counter in one batch (not once per unit) and immediately
recomputes the scaled percent and writes it to the progress channel; but the
increment is an unguarded read-modify-write, so an interleaving of two
concurrent calls exists in which one update is lost. -/
theorem c6_unguarded_counter :
    (∀ (st : UnifiedState) (n : Nat) (ch : Option Nat),
       (update_progress st n true ch).2 =
         some (unified_percent st.stage (stage_current st + n) (stage_total st)))
  ∧ [CAct.read false, CAct.read true, CAct.write false, CAct.write true] ∈ counter_interleavings
  ∧ (crun 1 1 [CAct.read false, CAct.read true, CAct.write false, CAct.write true]
      ⟨0, 0, 0⟩).c = 1 := by
  refine ⟨?_, by decide, by decide⟩
  intro st n ch
  cases hst : st.stage <;>
    simp [update_progress, write_progress_tempfile, stage_current, stage_total, hst]

/-- Witness for `c6_unguarded_counter`: one concrete sequential call during
the swapper stage. -/
theorem c6_witness :
    (update_progress ⟨Stage.swapper, 10, 4, 10, 0⟩ 1 true none).2 =
      some (unified_percent Stage.swapper
        (stage_current ⟨Stage.swapper, 10, 4, 10, 0⟩ + 1)
        (stage_total ⟨Stage.swapper, 10, 4, 10, 0⟩)) :=
  c6_unguarded_counter.1 ⟨Stage.swapper, 10, 4, 10, 0⟩ 1 none

end FaceBackup
